import Mathlib

/-!
# Verification of the alpha_bot event pipeline

Shallow embedding of the repository's core: the time utilities
(`collector/timeutil.py`), the extractor's merge/dedupe step
(`collector/collector.py`), the persistence layer
(`persistence/repository.py`) and the combined orchestrator tick
(`collector/alpha_watch.py`), together with theorems settling the
frozen specification claims.

Modelling conventions:
* Python `datetime` values are modelled at second granularity as a local
  wall-clock count of seconds paired with the UTC offset of the attached
  `tzinfo`; `ZoneInfo` zones are modelled as fixed-offset zones (DST
  transitions are outside the scope of the claims).
* Python `str` maps to `String`; the regex scanners of `timeutil.py` are
  embedded as recursive scanners over `List Char` (the `\d` class is
  modelled as the ASCII digits).
* Fallible Python code is embedded with `Except`: an uncaught
  `ValueError`/`TypeError`/SQL error is an `Except.error`.
-/

/-- A Python aware `datetime`, at second granularity: `wall` is the
local wall-clock in seconds since the epoch of its zone, `off` the UTC
offset (seconds) of its `tzinfo`.  The UTC instant is `wall - off`. -/
structure PyDateTime where
  wall : Int
  off : Int
deriving DecidableEq

/-- The UTC instant of an aware datetime (what Python's `<`, `-` and
`.timestamp()` operate on). -/
def PyDateTime.utc (d : PyDateTime) : Int := d.wall - d.off

/-- Python `d.date()` as a day number: floor of the local wall clock by 86400
(Python's `//`, i.e. floor division). -/
def PyDateTime.dateOf (d : PyDateTime) : Int := d.wall / 86400

/-- Python `datetime` comparison (compares UTC instants). -/
def PyDateTime.lt (a b : PyDateTime) : Bool := a.utc < b.utc

/-- Python `d - timedelta(seconds = n)`: shifts the wall clock, keeps the zone. -/
def PyDateTime.subSec (d : PyDateTime) (n : Int) : PyDateTime := ⟨d.wall - n, d.off⟩

/-- Python `d + timedelta(days = 1)`. -/
def PyDateTime.addDay (d : PyDateTime) : PyDateTime := ⟨d.wall + 86400, d.off⟩

/-- Python `d.astimezone(tz)` for a fixed-offset zone `tz` (seconds): same UTC
instant rendered at offset `tz`. -/
def PyDateTime.astimezone (d : PyDateTime) (tz : Int) : PyDateTime :=
  ⟨d.wall - d.off + tz, tz⟩

/-! ## Character helpers (models of Python `str` methods) -/

/-- Model of the regex class `\d` (ASCII decimal digits). -/
def isDig (c : Char) : Bool := ('0' ≤ c) && (c ≤ '9')

/-- Numeric value of an ASCII digit. -/
def dv (c : Char) : Nat := c.toNat - 48

/-- Whitespace stripped by Python `str.strip()`. -/
def isPySpace (c : Char) : Bool :=
  c = ' ' || c = '\t' || c = '\n' || c = '\r' || c = '\x0b' || c = '\x0c'

/-- Python `str.strip()`. -/
def pyStrip (l : List Char) : List Char :=
  ((l.dropWhile isPySpace).reverse.dropWhile isPySpace).reverse

/-- Python `str.lower()` (ASCII range; the marker strings compared
against contain no cased characters outside it). -/
def lowChar (c : Char) : Char :=
  if ('A' ≤ c) && (c ≤ 'Z') then Char.ofNat (c.toNat + 32) else c

/-- Python `str.lower()` on a character list. -/
def pyLower (l : List Char) : List Char := l.map lowChar

/-! ## `collector/timeutil.py` -/

/-- Constant `TBA_MARKERS` from `timeutil.py`. -/
def tbaMarkers : List (List Char) :=
  [("tba").toList, ("to be announced").toList, ("待定").toList,
   ("—").toList, ("-").toList, [], ("na").toList, ("n/a").toList]

/-- One attempt of `re.search(r"(\d{1,2}):(\d{2})", ...)` anchored at the
head of the list: greedy two-digit hour first, then the one-digit
backtrack, exactly as the regex engine does. -/
def matchHHMM (l : List Char) : Option (Nat × Nat) :=
  match l with
  | a :: b :: c :: d :: e :: _ =>
    if isDig a && isDig b && (c == ':') && isDig d && isDig e then
      some (10 * dv a + dv b, 10 * dv d + dv e)
    else if isDig a && (b == ':') && isDig c && isDig d then
      some (dv a, 10 * dv c + dv d)
    else none
  | [a, b, c, d] =>
    if isDig a && (b == ':') && isDig c && isDig d then
      some (dv a, 10 * dv c + dv d)
    else none
  | _ => none

/-- Search `re.search(r"(\d{1,2}):(\d{2})", value)`: first (leftmost) match. -/
def findHHMM : List Char → Option (Nat × Nat)
  | [] => none
  | c :: rest =>
    match matchHHMM (c :: rest) with
    | some r => some r
    | none => findHHMM rest

/-- One attempt of `re.search(r"(\d{4})-(\d{2})-(\d{2})", ...)` anchored
at the head of the list. -/
def matchDate (l : List Char) : Option (Nat × Nat × Nat) :=
  match l with
  | a :: b :: c :: d :: e :: f :: g :: h :: i :: j :: _ =>
    if isDig a && isDig b && isDig c && isDig d && (e == '-') &&
       isDig f && isDig g && (h == '-') && isDig i && isDig j then
      some (1000 * dv a + 100 * dv b + 10 * dv c + dv d,
            10 * dv f + dv g, 10 * dv i + dv j)
    else none
  | _ => none

/-- Search `re.search(r"(\d{4})-(\d{2})-(\d{2})", value)`: first match. -/
def findDate : List Char → Option (Nat × Nat × Nat)
  | [] => none
  | c :: rest =>
    match matchDate (c :: rest) with
    | some r => some r
    | none => findDate rest

/-- Leap year (proleptic Gregorian, as Python's `datetime`). -/
def isLeap (y : Nat) : Bool := y % 4 == 0 && (y % 100 != 0 || y % 400 == 0)

/-- Days in a month, as validated by `datetime(year, month, day)`. -/
def daysInMonth (y m : Nat) : Nat :=
  if m == 2 then (if isLeap y then 29 else 28)
  else if m == 4 || m == 6 || m == 9 || m == 11 then 30
  else 31

/-- The argument ranges accepted by Python's `datetime(year, month, day)`
constructor; outside them it raises `ValueError`. -/
def validDate (y m d : Nat) : Bool :=
  1 ≤ y && y ≤ 9999 && 1 ≤ m && m ≤ 12 && 1 ≤ d && d ≤ daysInMonth y m

/-- Day number of a civil date (days since 1970-01-01, standard
`days_from_civil` algorithm). -/
def daysFromCivil (y m d : Nat) : Int :=
  let yi : Int := (y : Int) - (if m ≤ 2 then 1 else 0)
  let era : Int := yi / 400
  let yoe : Int := yi - era * 400
  let mp : Int := if m ≤ 2 then (m : Int) + 9 else (m : Int) - 3
  let doy : Int := (153 * mp + 2) / 5 + (d : Int) - 1
  let doe : Int := yoe * 365 + yoe / 4 - yoe / 100 + doy
  era * 146097 + doe - 719468

/-- Civil date of a day number (inverse of `daysFromCivil`). -/
def civilFromDays (z : Int) : Int × Int × Int :=
  let z' := z + 719468
  let era := z' / 146097
  let doe := z' - era * 146097
  let yoe := (doe - doe / 1460 + doe / 36524 - doe / 146096) / 365
  let y := yoe + era * 400
  let doy := doe - (365 * yoe + yoe / 4 - yoe / 100)
  let mp := (5 * doy + 2) / 153
  let d := doy - (153 * mp + 2) / 5 + 1
  let m := if mp < 10 then mp + 3 else mp - 9
  (if m ≤ 2 then y + 1 else y, m, d)

/-- Left-pad a natural with zeros to the given width. -/
def padNum (width n : Nat) : List Char :=
  let s := (Nat.toDigits 10 n)
  (List.replicate (width - s.length) ('0')) ++ s

/-- Rendering `now.strftime("%Y-%m-%d")` for a day number. -/
def dateToStr (z : Int) : String :=
  let c := civilFromDays z
  ⟨padNum 4 c.1.toNat ++ [('-')] ++ padNum 2 c.2.1.toNat ++ [('-')] ++ padNum 2 c.2.2.toNat⟩

/-- Python `value.replace("Z", "+00:00")`. -/
def pyReplaceZ : List Char → List Char
  | [] => []
  | 'Z' :: rest => ('+') :: ('0') :: ('0') :: (':') :: ('0') :: ('0') :: pyReplaceZ rest
  | c :: rest => c :: pyReplaceZ rest

/-- A fixed-offset suffix `±HH:MM` closing an ISO string (model of the
offsets accepted by `datetime.fromisoformat`; an offset of a day or more
raises, so hours are bounded by 23). -/
def parseIsoOffset (l : List Char) : Option Int :=
  match l with
  | [s, h1, h2, c, m1, m2] =>
    if (s == '+' || s == '-') && isDig h1 && isDig h2 && (c == ':') &&
       isDig m1 && isDig m2 then
      let hh := 10 * dv h1 + dv h2
      let mm := 10 * dv m1 + dv m2
      if hh ≤ 23 && mm ≤ 59 then
        let v : Int := (hh : Int) * 3600 + (mm : Int) * 60
        some (if s == '-' then -v else v)
      else none
    else none
  | _ => none

/-- Time-of-day part `HH[:MM[:SS]]` of an ISO string, optionally closed
by an offset.  Returns (seconds into the day, optional UTC offset). -/
def parseIsoTime (l : List Char) : Option (Int × Option Int) :=
  match l with
  | h1 :: h2 :: rest =>
    if isDig h1 && isDig h2 && 10 * dv h1 + dv h2 ≤ 23 then
      let hh : Int := (10 * dv h1 + dv h2 : Nat)
      match rest with
      | [] => some (hh * 3600, none)
      | ':' :: m1 :: m2 :: rest2 =>
        if isDig m1 && isDig m2 && 10 * dv m1 + dv m2 ≤ 59 then
          let mm : Int := (10 * dv m1 + dv m2 : Nat)
          match rest2 with
          | [] => some (hh * 3600 + mm * 60, none)
          | ':' :: s1 :: s2 :: rest3 =>
            if isDig s1 && isDig s2 && 10 * dv s1 + dv s2 ≤ 59 then
              let ss : Int := (10 * dv s1 + dv s2 : Nat)
              match rest3 with
              | [] => some (hh * 3600 + mm * 60 + ss, none)
              | rest3 => (parseIsoOffset rest3).map (fun o => (hh * 3600 + mm * 60 + ss, some o))
            else none
          | rest2 => (parseIsoOffset rest2).map (fun o => (hh * 3600 + mm * 60, some o))
        else none
      | rest => (parseIsoOffset rest).map (fun o => (hh * 3600, some o))
    else none
  | _ => none

/-- Model of Python's `datetime.fromisoformat` (the documented classic
grammar `YYYY-MM-DD[<sep>HH[:MM[:SS]][±HH:MM]]`; fractional seconds are
below the model's granularity).  Returns the wall clock in seconds and
the parsed offset when the string carries one; `none` models the
`ValueError` raised on any other input. -/
def fromisoformat (l : List Char) : Option (Int × Option Int) :=
  match l with
  | a :: b :: c :: d :: e :: f :: g :: h :: i :: j :: rest =>
    if isDig a && isDig b && isDig c && isDig d && (e == '-') &&
       isDig f && isDig g && (h == '-') && isDig i && isDig j then
      let y := 1000 * dv a + 100 * dv b + 10 * dv c + dv d
      let mo := 10 * dv f + dv g
      let dd := 10 * dv i + dv j
      if validDate y mo dd then
        let base : Int := daysFromCivil y mo dd * 86400
        match rest with
        | [] => some (base, none)
        | _sep :: trest =>
          (parseIsoTime trest).map (fun p => (base + p.1, p.2))
      else none
    else none
  | _ => none

/-- Function `_parse_iso_datetime(value, tz)`: replace `Z`, parse, attach `tz` if
naive, convert to `tz`.  The caught `ValueError` is the `none` case. -/
def parse_iso_datetime (value : List Char) (tz : Int) : Option PyDateTime :=
  match fromisoformat (pyReplaceZ value) with
  | none => none
  | some (wall, offOpt) =>
    let dt : PyDateTime := ⟨wall, offOpt.getD tz⟩
    some (dt.astimezone tz)

/-- The `candidate` expression of `_parse_hhmm`:
`datetime.combine(reference.date(), time(hour, minute, tzinfo=tz)).astimezone(tz)`. -/
def hhmmCombine (reference : PyDateTime) (tz : Int) (hour minute : Nat) : PyDateTime :=
  PyDateTime.astimezone
    ⟨reference.dateOf * 86400 + ((hour : Int) * 3600 + (minute : Int) * 60), tz⟩ tz

/-- Function `_parse_hhmm(value, tz, reference)`.  `time(hour, minute)` raises
`ValueError` (the `.error` case) when the matched digits are out of
range; otherwise the match is combined with `reference.date()` in `tz`
and rolled over by one day when it precedes `reference` by more than one
hour. -/
def parse_hhmm (value : List Char) (tz : Int) (reference : PyDateTime) :
    Except Unit (Option PyDateTime) :=
  match findHHMM value with
  | none => .ok none
  | some (hour, minute) =>
    if hour ≥ 24 ∨ minute ≥ 60 then .error ()
    else if (hhmmCombine reference tz hour minute).lt (reference.subSec 3600) then
      .ok (some (hhmmCombine reference tz hour minute).addDay)
    else .ok (some (hhmmCombine reference tz hour minute))

/-- Function `_parse_date_only(value, tz)`.  `datetime(year, month, day)` raises
`ValueError` on an invalid calendar date. -/
def parse_date_only (value : List Char) (tz : Int) : Except Unit (Option PyDateTime) :=
  match findDate value with
  | none => .ok none
  | some (y, mo, d) =>
    if validDate y mo d then .ok (some ⟨daysFromCivil y mo d * 86400, tz⟩)
    else .error ()

/-- The body of `parse_event_time` after normalization: TBA markers give
`none`; then the ISO, `HH:MM` and `YYYY-MM-DD` strategies are tried in
order.  Uncaught `ValueError`s from the last two strategies propagate as
`.error`. -/
def parseNormalized (rawNorm : List Char) (tz : Int) (reference : PyDateTime) :
    Except Unit (Option PyDateTime) :=
  if tbaMarkers.contains (pyLower rawNorm) then .ok none
  else
    match parse_iso_datetime rawNorm tz with
    | some dt => .ok (some dt)
    | none =>
      match parse_hhmm rawNorm tz reference with
      | .error e => .error e
      | .ok (some dt) => .ok (some dt)
      | .ok none =>
        match parse_date_only rawNorm tz with
        | .error e => .error e
        | .ok (some dt) => .ok (some dt)
        | .ok none => .ok none

/-- Function `parse_event_time(raw_time, timezone, reference)` (entry point):
the empty string gives `none`, then the body above runs on the stripped
string. -/
def parse_event_time (raw_time : String) (tz : Int) (reference : PyDateTime) :
    Except Unit (Option PyDateTime) :=
  if raw_time = ("") then .ok none
  else parseNormalized (pyStrip raw_time.toList) tz reference

/-- Local time of day in seconds: `now.timetz().replace(tzinfo=None)`,
with Python `time` comparison being comparison of seconds-of-day. -/
def timeOfDay (now : PyDateTime) : Int := now.wall % 86400

/-- Function `in_quiet_hours(now, quiet_window)` with window bounds as
seconds-of-day. -/
def in_quiet_hours (now : PyDateTime) (quiet_window : Option (Int × Int)) : Bool :=
  match quiet_window with
  | none => false
  | some (start, stop) =>
    let nowTime := timeOfDay now
    if start ≤ stop then decide (start ≤ nowTime) && decide (nowTime < stop)
    else decide (nowTime ≥ start) || decide (nowTime < stop)

/-! ## `collector/models.py` — the in-memory `Event` -/

/-- Dataclass `Event` from `models.py`.  The `section` field is spelled
`sectionLabel` (`section` is a Lean keyword); `details` is the
string-keyed mapping, its values modelled as strings. -/
structure Event where
  token : String
  sectionLabel : String
  raw_time : String
  start_time : Option PyDateTime
  details : List (String × String)
  source : String
  url : Option String
deriving DecidableEq

/-- Python `dict.get(k)` on a `details` mapping. -/
def pyGet (d : List (String × String)) (k : String) : Option String :=
  (d.find? (fun p => p.1 == k)).map (fun p => p.2)

/-- Python `d[k] = v` (replace in place, else append). -/
def pySet (d : List (String × String)) (k v : String) : List (String × String) :=
  if d.any (fun p => p.1 == k) then d.map (fun p => if p.1 == k then (k, v) else p)
  else d ++ [(k, v)]

/-- Expression `event.details.get("date") or event.details.get("Date")` — the
falsy-chain used by both the upsert guard and the orchestrator. -/
def pyGetDateOrDate (d : List (String × String)) : Option String :=
  match pyGet d ("date") with
  | some v => if v == ("") then pyGet d ("Date") else some v
  | none => pyGet d ("Date")

/-! ## `collector/collector.py` — `AlphaCollector._deduplicate` -/

/-- The dict key of `_deduplicate`:
`(event.section, f"{event.token}|{event.raw_time}")`. -/
def dedupKey (e : Event) : String × String :=
  (e.sectionLabel, e.token ++ ("|") ++ e.raw_time)

/-- One loop iteration of `_deduplicate`: store under the key when the
key is fresh, and otherwise overwrite exactly when the condition
`unique[key].source == "dom"` holds (note: the condition inspects the
record already stored, not the incoming one). -/
def dedupStep (acc : List ((String × String) × Event)) (e : Event) :
    List ((String × String) × Event) :=
  let key := dedupKey e
  match acc.find? (fun p => p.1 == key) with
  | none => acc ++ [(key, e)]
  | some stored =>
    if stored.2.source == ("dom") then
      acc.map (fun q => if q.1 == key then (key, e) else q)
    else acc

/-- Function `_deduplicate(events)`: insertion-ordered dict of survivors, then
`list(unique.values())`.  In `fetch_events` the input list carries all
JSON-extracted events first, then all DOM-extracted ones. -/
def deduplicate (events : List Event) : List Event :=
  (events.foldl dedupStep []).map (fun p => p.2)

/-! ## `persistence/repository.py` — data model -/

/-- Notification delivery status. -/
inductive NStatus
  | pending
  | sent
  | failed
deriving DecidableEq

/-- The `metadata` JSON written by `_create_notification_task`. -/
structure Meta where
  token : String
  display_name : String
  sectionLabel : String
deriving DecidableEq

/-- A row of `alpha_events`.  `start_time` is the stored
`"%Y-%m-%d %H:%M:%S"` value, modelled as wall-clock seconds;
`details_json` is the serialized `details` mapping, modelled as the
mapping itself (the serialization is canonical). -/
structure EventRow where
  id : Nat
  token : String
  start_time : Option Int
  raw_time : String
  amount : Option String
  points : Option String
  details_json : List (String × String)
deriving DecidableEq

/-- A row of `alpha_notifications`. -/
structure NotifRow where
  id : Nat
  event_id : Nat
  offset_minutes : Option Int
  remind_at : Int
  channel : String
  status : NStatus
  sent_at : Option Int
  fail_reason : Option String
  attempts : Nat
  metadata : Meta
deriving DecidableEq

/-- A row of `alpha_notification_logs`. -/
structure LogRow where
  id : Nat
  notification_id : Nat
  attempt_no : Nat
  spug_endpoint : String
  payload : List (String × String)
  response_code : Option Int
  response_body : Option (List (String × String))
deriving DecidableEq

/-- The persistent store: the three tables plus their auto-increment
counters. -/
structure DbState where
  events : List EventRow
  notifs : List NotifRow
  logs : List LogRow
  nextEventId : Nat
  nextNotifId : Nat
  nextLogId : Nat
deriving DecidableEq

/-- Errors surfaced by the store. -/
inductive SqlError
  | syntaxError
  | missingRow
deriving DecidableEq

/-! ## Repository operations -/

/-- Helper `pick(keys)` inside `_extract_detail_fields`: first key present with
a non-empty value whose stripped rendering is non-empty. -/
def pickDetail (keys : List String) (d : List (String × String)) : Option String :=
  match keys with
  | [] => none
  | k :: rest =>
    match pyGet d k with
    | some v =>
      if v == ("") then pickDetail rest d
      else
        let candidate : String := ⟨pyStrip v.toList⟩
        if candidate == ("") then pickDetail rest d else some candidate
    | none => pickDetail rest d

/-- Function `_extract_detail_fields(details) → (amount, points)`. -/
def extract_detail_fields (d : List (String × String)) : Option String × Option String :=
  (pickDetail [("amount"), ("数量"), ("allocation"), ("supply")] d,
   pickDetail [("points"), ("积分"), ("score")] d)

/-- Model of the regex class `\w` (ASCII word characters). -/
def isWordChar (c : Char) : Bool := c.isAlphanum || c = '_'

/-- A `\b` boundary holds before the match position. -/
def boundaryOk (prev : Option Char) : Bool :=
  match prev with
  | none => true
  | some c => !(isWordChar c)

/-- A `\b` boundary holds after the match. -/
def tailBoundary : List Char → Bool
  | [] => true
  | c :: _ => !(isWordChar c)

/-- One attempt of `re.search(r"\b\d{1,2}:\d{2}\b", ...)` anchored at
the current position (greedy two-digit hour, then the backtrack). -/
def matchBHHMM (prev : Option Char) (l : List Char) : Bool :=
  boundaryOk prev &&
  (match l with
   | a :: b :: c :: d :: e :: rest =>
     (isDig a && isDig b && (c == ':') && isDig d && isDig e && tailBoundary rest) ||
     (isDig a && (b == ':') && isDig c && isDig d && tailBoundary (e :: rest))
   | [a, b, c, d] => isDig a && (b == ':') && isDig c && isDig d
   | _ => false)

/-- The regex search itself, carrying the previous character for the
leading boundary. -/
def searchBHHMM : Option Char → List Char → Bool
  | _, [] => false
  | prev, c :: rest => matchBHHMM prev (c :: rest) || searchBHHMM (some c) rest

/-- Function `_is_valid_time_format(raw_time)`. -/
def is_valid_time_format (raw : String) : Bool :=
  if raw = ("") then false else searchBHHMM none raw.toList

/-- The UPDATE statement issued by `upsert_events` for an existing row,
verbatim from the source (note the trailing comma before `WHERE`). -/
def updateEventsSql : String :=
  "UPDATE alpha_events SET start_time=%s, raw_time=%s, amount=%s, points=%s, details_json=%s, WHERE id=%s"

/-- A dangling comma directly (modulo spaces) before the keyword
`WHERE`. -/
def commaBeforeWhere : List Char → Bool
  | [] => false
  | ',' :: rest =>
    (match rest.dropWhile (fun c => c == ' ') with
     | 'W' :: 'H' :: 'E' :: 'R' :: 'E' :: _ => true
     | _ => commaBeforeWhere rest)
  | _ :: rest => commaBeforeWhere rest

/-- Modelled from MySQL's statement grammar: a SET list may not end with
a dangling comma before `WHERE`; executing such a statement raises a
syntax error instead of applying its effect. -/
def execSql (st : DbState) (stmt : String) (eff : DbState → DbState) : Except SqlError DbState :=
  if commaBeforeWhere stmt.toList then .error .syntaxError else .ok (eff st)

/-- The row mutation the `upsert_events` UPDATE would perform. -/
def updateEventRow (eid : Nat) (stt : Option Int) (raw : String)
    (am pts : Option String) (dj : List (String × String)) (st : DbState) : DbState :=
  {st with events := st.events.map (fun r =>
    if r.id == eid then
      {r with start_time := stt, raw_time := raw, amount := am, points := pts, details_json := dj}
    else r)}

/-- Method `Repository.upsert_events(events, now)`: guard on `details.date`,
guard on the `raw_time` clock pattern, then update-or-insert keyed by
`(token, raw_time)` and collect ids in input order.  A store error
aborts the call (autocommit leaves prior statements applied). -/
def upsert_events (st : DbState) (events : List Event) (now : PyDateTime) :
    DbState × Except SqlError (List Nat) :=
  match events with
  | [] => (st, .ok [])
  | e :: rest =>
    let todayStr := dateToStr now.dateOf
    let dval := pyGetDateOrDate e.details
    if (match dval with | some v => v != todayStr | none => false) then
      upsert_events st rest now
    else if !(is_valid_time_format e.raw_time) then
      upsert_events st rest now
    else
      let sttStr := e.start_time.map (fun d => d.wall)
      let ap := extract_detail_fields e.details
      match (st.events.find? (fun r => r.token == e.token && r.raw_time == e.raw_time)).map (fun r => r.id) with
      | some eid =>
        match execSql st updateEventsSql (updateEventRow eid sttStr e.raw_time ap.1 ap.2 e.details) with
        | .error er => (st, .error er)
        | .ok st' =>
          let res := upsert_events st' rest now
          (res.1, res.2.map (fun ids => eid :: ids))
      | none =>
        let newRow : EventRow := ⟨st.nextEventId, e.token, sttStr, e.raw_time, ap.1, ap.2, e.details⟩
        let st' : DbState := {st with events := st.events ++ [newRow], nextEventId := st.nextEventId + 1}
        match (st'.events.find? (fun r => r.token == e.token && r.raw_time == e.raw_time)).map (fun r => r.id) with
        | some eid =>
          let res := upsert_events st' rest now
          (res.1, res.2.map (fun ids => eid :: ids))
        | none => (st', .error .missingRow)

/-- The uniqueness key of `alpha_notifications`. -/
def notifKey (r : NotifRow) : Nat × Option Int × Int :=
  (r.event_id, r.offset_minutes, r.remind_at)

/-- A row with the given key exists. -/
def containsKey (l : List NotifRow) (k : Nat × Option Int × Int) : Bool :=
  l.any (fun r => notifKey r == k)

/-- The row the `_create_notification_task` INSERT carries: initial
status `pending`, zero attempts, metadata
`{token, display_name (defaulting to the token), section}`. -/
def notifRowFor (nid event_id : Nat) (e : Event) (offset : Option Int)
    (remind_at : Int) (channel : String) : NotifRow :=
  ⟨nid, event_id, offset, remind_at, channel, .pending, none, none, 0,
   ⟨e.token, (pyGet e.details ("display_name")).getD e.token, e.sectionLabel⟩⟩

/-- Method `Repository._create_notification_task`: `INSERT IGNORE` into
`alpha_notifications`.  Modelled from the spec: the schema file (not
under `src/`) declares `(event_id, offset_minutes, remind_at)` unique,
so the insert is ignored exactly when a row with that key already
exists. -/
def create_notification_task (st : DbState) (event_id : Nat) (e : Event)
    (offset : Option Int) (remind_at : Int) (channel : String) : DbState :=
  if containsKey st.notifs (event_id, offset, remind_at) then st
  else
    {st with
      notifs := st.notifs ++ [notifRowFor st.nextNotifId event_id e offset remind_at channel],
      nextNotifId := st.nextNotifId + 1}

/-- One iteration of the `ensure_notifications` loop: skip events with
no resolved start time, skip those whose start is 30 minutes or more in
the past of the wall clock, otherwise materialize the 30-minute
reminder. -/
def ensureStep (default_channel : String) (currentTs : Int) (acc : DbState)
    (p : Nat × Event) : DbState :=
  match p.2.start_time with
  | none => acc
  | some stt =>
    if currentTs - 30 * 60 ≥ stt.utc then acc
    else create_notification_task acc p.1 p.2 (some 30) (stt.wall - 30 * 60) default_channel

/-- Method `Repository.ensure_notifications(event_ids, events, default_channel,
now)`.  `currentTs` is the value of `time.time()` at the call — the
source compares against the wall clock; its `now` parameter is accepted
but unused, as in the source. -/
def ensure_notifications (st : DbState) (event_ids : List Nat) (events : List Event)
    (default_channel : String) (_now : PyDateTime) (currentTs : Int) : DbState :=
  (event_ids.zip events).foldl (ensureStep default_channel currentTs) st

/-- The in-memory task handed to the dispatcher. -/
structure NotificationTask where
  id : Nat
  event_id : Nat
  token : String
  event_time : Option Int
  offset_minutes : Option Int
  channel : String
  remind_at : Int
  details : List (String × String)
  attempts : Nat
  raw_time : Option String
deriving DecidableEq

/-- The WHERE predicate of `fetch_due_notifications`. -/
def duePred (now : PyDateTime) (n : NotifRow) : Bool :=
  (n.status == NStatus.pending) && (n.remind_at ≤ now.wall)

/-- The row set of `fetch_due_notifications`, ordered.  Modelled from
the spec: `ORDER BY n.remind_at ASC` leaves the order of equal keys to
the engine, which the spec pins down as insertion (id) order — a stable
sort of the id-ordered table. -/
def selectDue (st : DbState) (now : PyDateTime) : List NotifRow :=
  (st.notifs.filter (duePred now)).insertionSort (fun a b => a.remind_at ≤ b.remind_at)

/-- The column projection of the joined query. -/
def mkTask (n : NotifRow) (e : EventRow) : NotificationTask :=
  ⟨n.id, n.event_id, e.token, e.start_time, n.offset_minutes, n.channel,
   n.remind_at, e.details_json, n.attempts, some e.raw_time⟩

/-- Method `Repository.fetch_due_notifications(now)`: pending rows due by
`now`, inner-joined with their event row, ordered by `remind_at`. -/
def fetch_due_notifications (st : DbState) (now : PyDateTime) : List NotificationTask :=
  (selectDue st now).filterMap
    (fun n => (st.events.find? (fun e => e.id == n.event_id)).map (mkTask n))

/-- The per-row effect of the `mark_notification_sent` UPDATE: rows
matching the id take the new status, `sent_at` only on success
(`CASE WHEN`), the truncated reason, and an incremented attempt
counter. -/
def markRow (notification_id : Nat) (status : NStatus) (reason : Option String)
    (success : Bool) (nowTs : Int) (r : NotifRow) : NotifRow :=
  if r.id == notification_id then
    {r with status := status,
            sent_at := if success then some nowTs else r.sent_at,
            fail_reason := reason,
            attempts := r.attempts + 1}
  else r

/-- Method `Repository.mark_notification_sent(id, success, fail_reason)`.
`nowTs` models the SQL `NOW()` used for `sent_at`. -/
def mark_notification_sent (st : DbState) (notification_id : Nat) (success : Bool)
    (fail_reason : Option String) (nowTs : Int) : DbState :=
  let status : NStatus := if success then .sent else .failed
  let reason : Option String :=
    match fail_reason with
    | some s => if s == ("") then none else some (s.take 255)
    | none => none
  {st with notifs := st.notifs.map (markRow notification_id status reason success nowTs)}

/-- Method `Repository.log_notification_attempt(...)`: append-only insert into
`alpha_notification_logs`. -/
def log_notification_attempt (st : DbState) (notification_id attempt_no : Nat)
    (endpoint : String) (payload : List (String × String)) (response_code : Option Int)
    (response_body : Option (List (String × String))) : DbState :=
  let body : Option (List (String × String)) :=
    match response_body with
    | some b => if b.isEmpty then none else some b
    | none => none
  {st with
    logs := st.logs ++ [⟨st.nextLogId, notification_id, attempt_no, endpoint, payload,
      response_code, body⟩],
    nextLogId := st.nextLogId + 1}

/-! ## `collector/alpha_watch.py` — the combined orchestrator tick -/

/-- The settings fields `run_once` reads.  The timezone is the
fixed-offset model of `settings.timezone`; the quiet window bounds are
seconds-of-day. -/
structure TickSettings where
  timezone : Int
  quiet_hours : Option (Int × Int)
  spug_channel : String
  spug_quiet_channel : Option String
deriving DecidableEq

/-- Dataclass `NotificationResult` from `notifier/spug.py`. -/
structure NotificationResult where
  endpoint : String
  payload : List (String × String)
  status_code : Option Int
  response_body : Option (List (String × String))
deriving DecidableEq

/-- Dataclass `Reminder` from `collector/reminder.py`. -/
structure Reminder where
  event : Event
  offset_minutes : Option Int
  trigger_time : Int
  reason : String
deriving DecidableEq

/-- Exceptions that can cross the tick boundary. -/
inductive PyError
  | typeError
  | valueError
  | storeError (e : SqlError)
deriving DecidableEq

/-- The parameter list of `Repository.ensure_notifications` in
`persistence/repository.py`. -/
def ensureNotificationsParams : List String :=
  [("event_ids"), ("events"), ("default_channel"), ("now")]

/-- The keyword arguments `run_once` passes at its
`repository.ensure_notifications(...)` call site. -/
def runOnceEnsureKwargs : List String :=
  [("event_ids"), ("events"), ("reminder_offsets"), ("default_channel"), ("now")]

/-- Python keyword binding at that call: a keyword argument with no
matching parameter raises `TypeError` before the callee runs. -/
def callEnsureNotifications (st : DbState) (ids : List Nat) (events : List Event)
    (channel : String) (now : PyDateTime) (currentTs : Int) : Except PyError DbState :=
  if runOnceEnsureKwargs.all (fun k => ensureNotificationsParams.contains k) then
    .ok (ensure_notifications st ids events channel now currentTs)
  else .error .typeError

/-- Expression `quiet_channel or task.channel` (falsy chain). -/
def effectiveChannel (quiet_channel : Option String) (task : NotificationTask) : String :=
  match quiet_channel with
  | some c => if c == ("") then task.channel else c
  | none => task.channel

/-- Function `_build_reminder_from_task(task, effective_channel)`.  The event
time read back from the store is a naive datetime; it is rendered at
offset 0. -/
def build_reminder_from_task (task : NotificationTask) (effective_channel : String) : Reminder :=
  let details := pySet task.details ("channel") effective_channel
  let sectionLabel := (pyGet details ("section")).getD ("today")
  ⟨⟨task.token, sectionLabel, (task.raw_time).getD (""),
    task.event_time.map (fun w => ⟨w, 0⟩), details, ("db"), none⟩,
   task.offset_minutes, task.remind_at, ("scheduled")⟩

/-- Function `_log_and_mark(repository, task, result, success, reason)`. -/
def log_and_mark (st : DbState) (task : NotificationTask) (result : Option NotificationResult)
    (success : Bool) (reason : Option String) (nowTs : Int) : DbState :=
  let attempt_no := task.attempts + 1
  let st1 :=
    match result with
    | some res =>
      log_notification_attempt st task.id attempt_no res.endpoint res.payload
        res.status_code res.response_body
    | none =>
      log_notification_attempt st task.id attempt_no ("/error")
        [(("token"), task.token), (("reason"), reason.getD ("unknown"))] none
        (match reason with
         | some r => if r == ("") then none else some [(("error"), r)]
         | none => none)
  mark_notification_sent st1 task.id success reason nowTs

/-- One tick of the combined orchestrator, `run_once`.  The extractor
and the notifier are the external collaborators: `fetched` is the
outcome of `collector.fetch_events()`, and `send` the behaviour of
`notifier.send` (`.error reason` is a `SpugError` after retries, the
only exception the dispatch loop catches).  `currentTs` is the wall
clock during the tick. -/
def run_once (settings : TickSettings) (fetched : Except Unit (List Event))
    (send : Reminder → Bool → Except String NotificationResult)
    (st : DbState) (now : PyDateTime) (currentTs : Int) : DbState × Except PyError Unit :=
  match fetched with
  | .error _ => (st, .ok ())
  | .ok events0 =>
    match events0.mapM (fun e =>
        (parse_event_time e.raw_time settings.timezone now).map
          (fun sOpt => {e with start_time := sOpt})) with
    | .error _ => (st, .error .valueError)
    | .ok events1 =>
      let events2 := events1.filter (fun e =>
        match e.start_time with
        | some stt => stt.dateOf == now.dateOf
        | none => false)
      let todayStr := dateToStr now.dateOf
      let events3 := events2.filter (fun e =>
        (match pyGetDateOrDate e.details with
         | some v => if v == ("") then todayStr else v
         | none => todayStr) == todayStr)
      let events4 := events3.map (fun e =>
        {e with sectionLabel := ("today"), details := pySet e.details ("section") ("today")})
      let res := upsert_events st events4 now
      match res.2 with
      | .error er => (res.1, .error (.storeError er))
      | .ok ids =>
        match callEnsureNotifications res.1 ids events4 settings.spug_channel now currentTs with
        | .error er => (res.1, .error er)
        | .ok st2 =>
          let quiet_mode := in_quiet_hours now settings.quiet_hours
          let quiet_channel := if quiet_mode then settings.spug_quiet_channel else none
          let tasks := fetch_due_notifications st2 now
          let st3 := tasks.foldl
            (fun acc task =>
              let reminder := build_reminder_from_task task (effectiveChannel quiet_channel task)
              match send reminder quiet_mode with
              | .ok result => log_and_mark acc task (some result) true none currentTs
              | .error reason => log_and_mark acc task none false (some reason) currentTs)
            st2
          (st3, .ok ())

/-! ## Helper lemmas for the time-parsing claims -/

/-- A successful anchored `HH:MM` match implies a colon in the list. -/
lemma matchHHMM_colon (l : List Char) (p : Nat × Nat) (h : matchHHMM l = some p) :
    (':') ∈ l := by
  unfold matchHHMM at h
  split at h
  next a b c d e rest =>
    split at h
    next h1 =>
      simp only [Bool.and_eq_true, beq_iff_eq] at h1
      obtain ⟨⟨⟨⟨-, -⟩, hc⟩, -⟩, -⟩ := h1
      subst hc
      simp
    next h1 =>
      split at h
      next h2 =>
        simp only [Bool.and_eq_true, beq_iff_eq] at h2
        obtain ⟨⟨⟨-, hb⟩, -⟩, -⟩ := h2
        subst hb
        simp
      next h2 => exact absurd h (by simp)
  next a b c d =>
    split at h
    next h1 =>
      simp only [Bool.and_eq_true, beq_iff_eq] at h1
      obtain ⟨⟨⟨-, hb⟩, -⟩, -⟩ := h1
      subst hb
      simp
    next h1 => exact absurd h (by simp)
  next => exact absurd h (by simp)

/-- A successful `HH:MM` search implies a colon in the list. -/
lemma findHHMM_colon (l : List Char) (p : Nat × Nat) (h : findHHMM l = some p) :
    (':') ∈ l := by
  induction l with
  | nil => exact absurd h (by simp [findHHMM])
  | cons c rest ih =>
    unfold findHHMM at h
    cases hm : matchHHMM (c :: rest) with
    | some q => exact matchHHMM_colon _ _ hm
    | none =>
      rw [hm] at h
      exact List.mem_cons_of_mem _ (ih h)

/-- A string containing a colon is not a TBA marker (the markers contain
none, and lowering preserves the colon). -/
lemma tba_no_colon (l : List Char) (hc : (':') ∈ l) :
    tbaMarkers.contains (pyLower l) = false := by
  have hcl : (':') ∈ pyLower l := by
    unfold pyLower
    refine List.mem_map.mpr ⟨':', hc, by decide⟩
  rw [Bool.eq_false_iff]
  intro hcon
  have hmem : pyLower l ∈ tbaMarkers := by
    simpa using hcon
  have : (':') ∉ pyLower l := by
    simp only [tbaMarkers, List.mem_cons, List.mem_singleton] at hmem
    rcases hmem with h | h | h | h | h | h | h | h | h <;> first
      | (rw [h]; decide)
      | (exact absurd h (by simp))
  exact this hcl

/-- The value `_parse_hhmm` returns for an in-range match (the
`candidate` after the midnight-rollover adjustment). -/
def rolloverResult (reference : PyDateTime) (tz : Int) (hour minute : Nat) : PyDateTime :=
  if (hhmmCombine reference tz hour minute).lt (reference.subSec 3600) then
    (hhmmCombine reference tz hour minute).addDay
  else hhmmCombine reference tz hour minute

/-- The rollover result never precedes the reference by more than one
hour, provided the reference is expressed in the parsing zone. -/
lemma rollover_ge (reference : PyDateTime) (tz : Int) (hour minute : Nat)
    (hoff : reference.off = tz) :
    (rolloverResult reference tz hour minute).utc ≥ reference.utc - 3600 := by
  subst hoff
  dsimp only [rolloverResult, hhmmCombine, PyDateTime.lt, PyDateTime.astimezone,
    PyDateTime.subSec, PyDateTime.addDay, PyDateTime.utc, PyDateTime.dateOf]
  split_ifs with hlt <;>
    (simp only [decide_eq_true_eq] at hlt ⊢; omega)

/-- Claim C8: For every raw string whose first `HH:MM` match is a valid
clock time and which holds no full ISO datetime, every fixed-offset zone
`tz`, and every reference instant expressed in `tz`: `parse_event_time`
returns the reference's date combined with `HH:MM` in `tz`, with one day
added exactly when that combination precedes the reference by more than
one hour, and the returned instant is ≥ `reference − 1h`. -/
theorem claim_C8_hhmm_rollover (raw : String) (tz : Int) (reference : PyDateTime)
    (h m : Nat) (hoff : reference.off = tz)
    (hfind : findHHMM (pyStrip raw.toList) = some (h, m))
    (hh : h < 24) (hm : m < 60)
    (hiso : parse_iso_datetime (pyStrip raw.toList) tz = none) :
    parse_event_time raw tz reference = .ok (some (rolloverResult reference tz h m)) ∧
    (rolloverResult reference tz h m).utc ≥ reference.utc - 3600 ∧
    rolloverResult reference tz h m =
      (if (hhmmCombine reference tz h m).utc < reference.utc - 3600 then
        (hhmmCombine reference tz h m).addDay
      else hhmmCombine reference tz h m) ∧
    hhmmCombine reference tz h m =
      ⟨reference.dateOf * 86400 + ((h : Int) * 3600 + (m : Int) * 60), tz⟩ := by
  have hraw : raw ≠ ("") := by
    intro he
    rw [he] at hfind
    have h0 : findHHMM (pyStrip (("").toList)) = none := rfl
    rw [h0] at hfind
    exact Option.noConfusion hfind
  have htba : tbaMarkers.contains (pyLower (pyStrip raw.toList)) = false :=
    tba_no_colon _ (findHHMM_colon _ _ hfind)
  refine ⟨?_, rollover_ge reference tz h m hoff, ?_, ?_⟩
  · have hrange : ¬ (h ≥ 24 ∨ m ≥ 60) := by omega
    unfold parse_event_time
    rw [if_neg hraw]
    unfold parseNormalized parse_hhmm
    rw [if_neg (by simpa using htba)]
    simp only [hiso, hfind]
    rw [if_neg hrange]
    by_cases hlt : (hhmmCombine reference tz h m).lt (reference.subSec 3600) = true
    · rw [if_pos hlt]
      unfold rolloverResult
      rw [if_pos hlt]
    · rw [if_neg hlt]
      unfold rolloverResult
      rw [if_neg hlt]
  · unfold rolloverResult
    have hcond : ((hhmmCombine reference tz h m).lt (reference.subSec 3600) = true) ↔
        ((hhmmCombine reference tz h m).utc < reference.utc - 3600) := by
      dsimp only [PyDateTime.lt, PyDateTime.subSec, PyDateTime.utc]
      simp only [decide_eq_true_eq]
      constructor <;> intro hx <;> omega
    split_ifs with h1 h2
    · rfl
    · exact absurd (hcond.mp h1) h2
    · exact absurd (hcond.mpr (by assumption)) h1
    · rfl
  · dsimp only [hhmmCombine, PyDateTime.astimezone]
    simp only [PyDateTime.mk.injEq, eq_self_iff_true, and_true]
    omega

/-- Witness for C8: `raw_time = "00:15"` at reference 23:30 local
(+08:00) rolls over to 00:15 of the next day, one hour ahead of the
reference minus one hour. -/
theorem claim_C8_hhmm_rollover_witness :
    parse_event_time ("00:15") 28800 ⟨84600, 28800⟩ = .ok (some ⟨87300, 28800⟩) ∧
    (⟨87300, 28800⟩ : PyDateTime).utc ≥ (⟨84600, 28800⟩ : PyDateTime).utc - 3600 := by
  have h := claim_C8_hhmm_rollover ("00:15") 28800 ⟨84600, 28800⟩ 0 15 rfl (by decide)
    (by decide) (by decide) rfl
  exact ⟨h.1.trans rfl, h.2.1⟩

/-- Claim C9 counterexample: `parse_event_time` is not total on the code:
the matched digits of `"25:99"` are out of range, so `time(25, 99)`
raises an uncaught `ValueError`. -/
theorem claim_C9_counterexample :
    parse_event_time ("25:99") 28800 ⟨0, 28800⟩ = .error () := rfl

/-- Claim C9 as amended: `parse_event_time` terminates on every input and
returns an instant or `none` whenever the digits matched by its
patterns are in range: a first `HH:MM` match must be a valid clock time
and a first `YYYY-MM-DD` match a valid calendar date; otherwise it
raises `ValueError` instead of returning absent. -/
theorem claim_C9_total_in_range (raw : String) (tz : Int) (reference : PyDateTime)
    (hH : ∀ h m, findHHMM (pyStrip raw.toList) = some (h, m) → h < 24 ∧ m < 60)
    (hD : ∀ y mo d, findDate (pyStrip raw.toList) = some (y, mo, d) → validDate y mo d = true) :
    ∃ o, parse_event_time raw tz reference = .ok o := by
  unfold parse_event_time
  by_cases hraw : raw = ("")
  · rw [if_pos hraw]
    exact ⟨none, rfl⟩
  · rw [if_neg hraw]
    unfold parseNormalized
    by_cases htba : tbaMarkers.contains (pyLower (pyStrip raw.toList)) = true
    · rw [if_pos htba]
      exact ⟨none, rfl⟩
    · rw [if_neg htba]
      cases hiso : parse_iso_datetime (pyStrip raw.toList) tz with
      | some dt => exact ⟨some dt, rfl⟩
      | none =>
        unfold parse_hhmm
        cases hfm : findHHMM (pyStrip raw.toList) with
        | some p =>
          obtain ⟨ph, pm⟩ := p
          obtain ⟨hp1, hp2⟩ := hH ph pm hfm
          have hrange : ¬ (ph ≥ 24 ∨ pm ≥ 60) := by omega
          dsimp only
          rw [if_neg hrange]
          by_cases hlt : (hhmmCombine reference tz ph pm).lt (reference.subSec 3600) = true
          · rw [if_pos hlt]
            exact ⟨_, rfl⟩
          · rw [if_neg hlt]
            exact ⟨_, rfl⟩
        | none =>
          unfold parse_date_only
          cases hfd : findDate (pyStrip raw.toList) with
          | some q =>
            obtain ⟨qy, qmo, qd⟩ := q
            have hvd := hD qy qmo qd hfd
            dsimp only
            rw [if_pos hvd]
            exact ⟨_, rfl⟩
          | none => exact ⟨none, rfl⟩

/-- Witness for the amended C9 at the in-range input `"10:20"`. -/
theorem claim_C9_total_in_range_witness :
    ∃ o, parse_event_time ("10:20") 0 ⟨0, 0⟩ = .ok o :=
  claim_C9_total_in_range ("10:20") 0 ⟨0, 0⟩
    (by
      intro h m hfm
      have h0 : findHHMM (pyStrip (("10:20").toList)) = some (10, 20) := rfl
      have := h0.symm.trans hfm
      simp only [Option.some.injEq, Prod.mk.injEq] at this
      omega)
    (by
      intro y mo d hfd
      have h0 : findDate (pyStrip (("10:20").toList)) = none := rfl
      rw [h0] at hfd
      cases hfd)

/-- Claim C10: Quiet-hours membership: inclusive-exclusive `[start, stop)`
when `start ≤ stop`, wrap-around otherwise; and the spec's concrete
evaluations for the window 22:00–07:30. -/
theorem claim_C10_quiet_hours :
    (∀ (s e : Int) (now : PyDateTime), s ≤ e →
      (in_quiet_hours now (some (s, e)) = true ↔ s ≤ timeOfDay now ∧ timeOfDay now < e)) ∧
    (∀ (s e : Int) (now : PyDateTime), s > e →
      (in_quiet_hours now (some (s, e)) = true ↔ timeOfDay now ≥ s ∨ timeOfDay now < e)) ∧
    in_quiet_hours ⟨82800, 0⟩ (some (79200, 27000)) = true ∧
    in_quiet_hours ⟨7200, 0⟩ (some (79200, 27000)) = true ∧
    in_quiet_hours ⟨26940, 0⟩ (some (79200, 27000)) = true ∧
    in_quiet_hours ⟨27000, 0⟩ (some (79200, 27000)) = false ∧
    in_quiet_hours ⟨43200, 0⟩ (some (79200, 27000)) = false ∧
    in_quiet_hours ⟨79140, 0⟩ (some (79200, 27000)) = false := by
  refine ⟨?_, ?_, by decide, by decide, by decide, by decide, by decide, by decide⟩
  · intro s e now hse
    simp [in_quiet_hours, hse]
  · intro s e now hse
    have hse' : ¬ s ≤ e := not_le.mpr hse
    simp [in_quiet_hours, hse']

/-- Witness for C10 at 02:00 inside the wrapped window 22:00–07:30. -/
theorem claim_C10_quiet_hours_witness :
    in_quiet_hours ⟨7200, 0⟩ (some (79200, 27000)) = true :=
  (claim_C10_quiet_hours.2.1 79200 27000 ⟨7200, 0⟩ (by decide)).mpr (by decide)

/-! ## Fixtures and theorems for the extractor and orchestrator claims -/

/-- JSON-sourced record of spec §8 scenario 5. -/
def jsonEvent : Event :=
  ⟨("ALPHA"), ("today"), ("12:00"), none, [], ("json"), none⟩

/-- DOM-sourced record with the same `(section, token, raw_time)`
identity and richer details. -/
def domEvent : Event :=
  ⟨("ALPHA"), ("today"), ("12:00"), none, [(("amount"), ("5000"))], ("dom"), none⟩

/-- Claim C1 divergence: On a JSON/DOM identity collision the code keeps
the JSON-sourced record in either arrival order: the overwrite condition
`unique[key].source == "dom"` inspects the record already stored, so an
incoming DOM record never replaces a JSON one, while an incoming JSON
record replaces a stored DOM one.  The spec requires the DOM record to
survive. -/
theorem claim_C1_dedup_keeps_json :
    deduplicate [jsonEvent, domEvent] = [jsonEvent] ∧
    deduplicate [domEvent, jsonEvent] = [jsonEvent] := ⟨rfl, rfl⟩

/-- Settings fixture for the tick theorems. -/
def tickSettings0 : TickSettings := ⟨28800, none, ("voice"), none⟩

/-- An empty store. -/
def emptyDb : DbState := ⟨[], [], [], 1, 1, 1⟩

/-- Notifier oracle for paths that never dispatch. -/
def sendUnused : Reminder → Bool → Except String NotificationResult :=
  fun _ _ => .error ("unreachable")

/-- Claim C2 divergence: An extractor failure aborts the tick cleanly
with no state mutated, but every tick whose extraction succeeds — even
with zero events — dies with an uncaught `TypeError`: `run_once` passes
the keyword argument `reminder_offsets`, which the
`Repository.ensure_notifications` under `src/` does not accept. -/
theorem claim_C2_typeerror_escapes_tick :
    run_once tickSettings0 (.error ()) sendUnused emptyDb ⟨0, 0⟩ 0 = (emptyDb, .ok ()) ∧
    run_once tickSettings0 (.ok []) sendUnused emptyDb ⟨0, 0⟩ 0 = (emptyDb, .error .typeError) :=
  ⟨rfl, rfl⟩

/-- An event passing both upsert guards, whose `(token, raw_time)`
already has a row. -/
def omegaEvent : Event :=
  ⟨("OMEGA"), ("today"), ("10:20"), some ⟨37200, 28800⟩, [], ("json"), none⟩

/-- A store already holding the `("OMEGA", "10:20")` row. -/
def dbWithOmega : DbState :=
  ⟨[⟨1, ("OMEGA"), none, ("10:20"), none, none, []⟩], [], [], 2, 1, 1⟩

/-- Claim C3 divergence: The update path of `upsert_events` can never
update a row: its UPDATE statement carries a dangling comma before
`WHERE`, so the store rejects it and the call errors out — no row is
updated and no id is returned. -/
theorem claim_C3_update_is_broken_sql :
    upsert_events dbWithOmega [omegaEvent] ⟨37200, 28800⟩ = (dbWithOmega, .error .syntaxError) ∧
    commaBeforeWhere updateEventsSql.toList = true := ⟨rfl, rfl⟩

/-! ## Lemmas on `INSERT IGNORE` materialization (claims C4, C5, C7) -/

/-- Number of rows with a given uniqueness key. -/
def countKey (l : List NotifRow) (k : Nat × Option Int × Int) : Nat :=
  l.countP (fun r => notifKey r == k)

/-- At most one row per uniqueness key (the schema constraint as a state
invariant). -/
def KeyUnique (l : List NotifRow) : Prop :=
  l.Pairwise (fun a b => notifKey a ≠ notifKey b)

/-- After `_create_notification_task` a row with the requested key
exists. -/
lemma containsKey_create (st : DbState) (event_id : Nat) (e : Event) (offset : Option Int)
    (remind_at : Int) (channel : String) :
    containsKey (create_notification_task st event_id e offset remind_at channel).notifs
      (event_id, offset, remind_at) = true := by
  unfold create_notification_task
  by_cases h : containsKey st.notifs (event_id, offset, remind_at) = true
  · rw [if_pos h]
    exact h
  · rw [if_neg h]
    simp [containsKey, List.any_append, notifRowFor, notifKey]

/-- An `INSERT IGNORE` on an existing key leaves the state unchanged. -/
lemma create_of_contains (st : DbState) (event_id : Nat) (e : Event) (offset : Option Int)
    (remind_at : Int) (channel : String)
    (h : containsKey st.notifs (event_id, offset, remind_at) = true) :
    create_notification_task st event_id e offset remind_at channel = st := by
  unfold create_notification_task
  rw [if_pos h]

/-- The insert `_create_notification_task` is idempotent. -/
lemma create_idem (st : DbState) (event_id : Nat) (e : Event) (offset : Option Int)
    (remind_at : Int) (channel : String) :
    create_notification_task (create_notification_task st event_id e offset remind_at channel)
        event_id e offset remind_at channel
      = create_notification_task st event_id e offset remind_at channel :=
  create_of_contains _ _ _ _ _ _ (containsKey_create st event_id e offset remind_at channel)

/-- A key that is contained keeps being contained after any insert. -/
lemma containsKey_create_mono (st : DbState) (event_id : Nat) (e : Event) (offset : Option Int)
    (remind_at : Int) (channel : String) (k : Nat × Option Int × Int)
    (h : containsKey st.notifs k = true) :
    containsKey (create_notification_task st event_id e offset remind_at channel).notifs k = true := by
  unfold create_notification_task
  by_cases hc : containsKey st.notifs (event_id, offset, remind_at) = true
  · rw [if_pos hc]
    exact h
  · rw [if_neg hc]
    simp only [containsKey, List.any_append] at h ⊢
    simp [h]

/-- A key that is contained keeps being contained after one
`ensure_notifications` step. -/
lemma containsKey_ensureStep_mono (default_channel : String) (currentTs : Int)
    (st : DbState) (p : Nat × Event) (k : Nat × Option Int × Int)
    (h : containsKey st.notifs k = true) :
    containsKey (ensureStep default_channel currentTs st p).notifs k = true := by
  unfold ensureStep
  cases p.2.start_time with
  | none => exact h
  | some stt =>
    dsimp only
    by_cases hl : currentTs - 30 * 60 ≥ stt.utc
    · rw [if_pos hl]
      exact h
    · rw [if_neg hl]
      exact containsKey_create_mono _ _ _ _ _ _ _ h

/-- A key that is contained keeps being contained after the whole
`ensure_notifications` fold. -/
lemma containsKey_ensureFold_mono (default_channel : String) (currentTs : Int)
    (pairs : List (Nat × Event)) (st : DbState) (k : Nat × Option Int × Int)
    (h : containsKey st.notifs k = true) :
    containsKey (pairs.foldl (ensureStep default_channel currentTs) st).notifs k = true := by
  induction pairs generalizing st with
  | nil => exact h
  | cons p rest ih =>
    exact ih _ (containsKey_ensureStep_mono default_channel currentTs st p k h)

/-- After processing an eligible pair, its reminder key is present. -/
lemma containsKey_ensureStep_key (default_channel : String) (currentTs : Int)
    (st : DbState) (p : Nat × Event) (stt : PyDateTime)
    (hstt : p.2.start_time = some stt) (hel : ¬ (currentTs - 30 * 60 ≥ stt.utc)) :
    containsKey (ensureStep default_channel currentTs st p).notifs
      (p.1, some 30, stt.wall - 30 * 60) = true := by
  unfold ensureStep
  rw [hstt]
  dsimp only
  rw [if_neg hel]
  exact containsKey_create st p.1 p.2 (some 30) (stt.wall - 30 * 60) default_channel

/-- After the whole fold every eligible pair's reminder key is present. -/
lemma containsKey_ensureFold_key (default_channel : String) (currentTs : Int)
    (p : Nat × Event) (stt : PyDateTime) (hstt : p.2.start_time = some stt)
    (hel : ¬ (currentTs - 30 * 60 ≥ stt.utc)) :
    ∀ (pairs : List (Nat × Event)) (st : DbState), p ∈ pairs →
      containsKey (pairs.foldl (ensureStep default_channel currentTs) st).notifs
        (p.1, some 30, stt.wall - 30 * 60) = true := by
  intro pairs
  induction pairs with
  | nil =>
    intro st hp
    cases hp
  | cons q rest ih =>
    intro st hp
    rw [List.foldl_cons]
    rcases List.mem_cons.mp hp with hq | hq
    · subst hq
      exact containsKey_ensureFold_mono default_channel currentTs rest _ _
        (containsKey_ensureStep_key default_channel currentTs st p stt hstt hel)
    · exact ih _ hq

/-- A step whose reminder key (if any) is already present does
nothing. -/
lemma ensureStep_fixed (default_channel : String) (currentTs : Int) (st : DbState)
    (p : Nat × Event)
    (hfix : ∀ stt, p.2.start_time = some stt → ¬ (currentTs - 30 * 60 ≥ stt.utc) →
      containsKey st.notifs (p.1, some 30, stt.wall - 30 * 60) = true) :
    ensureStep default_channel currentTs st p = st := by
  unfold ensureStep
  cases h : p.2.start_time with
  | none => rfl
  | some stt =>
    dsimp only
    by_cases hl : currentTs - 30 * 60 ≥ stt.utc
    · rw [if_pos hl]
    · rw [if_neg hl]
      exact create_of_contains _ _ _ _ _ _ (hfix stt h hl)

/-- A fold whose every step fixes the base state is the identity. -/
lemma foldl_fixed_of_fixed (f : DbState → (Nat × Event) → DbState) :
    ∀ (pairs : List (Nat × Event)) (st : DbState), (∀ p ∈ pairs, f st p = st) →
      pairs.foldl f st = st := by
  intro pairs
  induction pairs with
  | nil =>
    intro st _
    rfl
  | cons p rest ih =>
    intro st h
    rw [List.foldl_cons, h p (List.mem_cons_self p rest)]
    exact ih st (fun q hq => h q (List.mem_cons_of_mem p hq))

/-- Re-running `ensure_notifications` on its own output is a no-op. -/
lemma ensure_notifications_idem (st : DbState) (event_ids : List Nat) (events : List Event)
    (default_channel : String) (now : PyDateTime) (currentTs : Int) :
    ensure_notifications (ensure_notifications st event_ids events default_channel now currentTs)
        event_ids events default_channel now currentTs
      = ensure_notifications st event_ids events default_channel now currentTs := by
  unfold ensure_notifications
  apply foldl_fixed_of_fixed
  intro p hp
  refine ensureStep_fixed default_channel currentTs _ p ?_
  intro stt hstt hel
  exact containsKey_ensureFold_key default_channel currentTs p stt hstt hel _ st hp

/-- A key that is absent occurs zero times. -/
lemma countKey_eq_zero_of_not_contains (l : List NotifRow) (k : Nat × Option Int × Int)
    (h : ¬ containsKey l k = true) : countKey l k = 0 := by
  unfold containsKey at h
  unfold countKey
  rw [List.countP_eq_zero]
  intro r hr
  simp only [List.any_eq_true, not_exists, not_and] at h
  intro hrk
  exact h r hr hrk

/-- Inserting preserves "at most one row per key". -/
lemma countKey_create_le (st : DbState) (event_id : Nat) (e : Event) (offset : Option Int)
    (remind_at : Int) (channel : String)
    (h : countKey st.notifs (event_id, offset, remind_at) ≤ 1) :
    countKey (create_notification_task st event_id e offset remind_at channel).notifs
      (event_id, offset, remind_at) ≤ 1 := by
  unfold create_notification_task
  by_cases hc : containsKey st.notifs (event_id, offset, remind_at) = true
  · rw [if_pos hc]
    exact h
  · rw [if_neg hc]
    have h0 := countKey_eq_zero_of_not_contains st.notifs (event_id, offset, remind_at) hc
    unfold countKey at h0 ⊢
    rw [List.countP_append, h0]
    simp only [List.countP_cons, List.countP_nil]
    split_ifs <;> omega

/-- Claim C5: Materializing a notification is idempotent: iterating the
underlying `INSERT IGNORE` any number of times equals one run, a state
already holding the key is returned unchanged, at most one row with the
key ever exists, and re-running `ensure_notifications` on its own output
changes nothing. -/
theorem claim_C5_materialization_idempotent (st : DbState) (event_id : Nat) (e : Event)
    (offset : Option Int) (remind_at : Int) (channel : String) (event_ids : List Nat)
    (events : List Event) (default_channel : String) (now : PyDateTime) (currentTs : Int) :
    (∀ n : Nat,
      (fun s => create_notification_task s event_id e offset remind_at channel)^[n + 1] st =
        create_notification_task st event_id e offset remind_at channel) ∧
    (containsKey st.notifs (event_id, offset, remind_at) = true →
      create_notification_task st event_id e offset remind_at channel = st) ∧
    (countKey st.notifs (event_id, offset, remind_at) ≤ 1 →
      countKey (create_notification_task st event_id e offset remind_at channel).notifs
        (event_id, offset, remind_at) ≤ 1) ∧
    ensure_notifications (ensure_notifications st event_ids events default_channel now currentTs)
        event_ids events default_channel now currentTs
      = ensure_notifications st event_ids events default_channel now currentTs := by
  refine ⟨?_, create_of_contains st event_id e offset remind_at channel,
    countKey_create_le st event_id e offset remind_at channel,
    ensure_notifications_idem st event_ids events default_channel now currentTs⟩
  intro n
  induction n with
  | zero => rfl
  | succ k ih =>
    rw [Function.iterate_succ_apply', ih]
    exact create_idem st event_id e offset remind_at channel

/-- A store already holding the key `(1, 30, 0)`. -/
def dbWithNotif : DbState :=
  ⟨[], [⟨1, 1, some 30, 0, ("voice"), .pending, none, none, 0,
    ⟨("ALPHA"), ("ALPHA"), ("today")⟩⟩], [], 1, 2, 1⟩

/-- Witness for C5: two runs equal one on the empty store, re-insertion
into a store holding the key is a no-op, and the key count stays ≤ 1. -/
theorem claim_C5_materialization_idempotent_witness :
    ((fun s => create_notification_task s 1 jsonEvent (some 30) 0 ("voice"))^[2] emptyDb =
      create_notification_task emptyDb 1 jsonEvent (some 30) 0 ("voice")) ∧
    (create_notification_task dbWithNotif 1 jsonEvent (some 30) 0 ("voice") = dbWithNotif) ∧
    countKey (create_notification_task emptyDb 1 jsonEvent (some 30) 0 ("voice")).notifs
      (1, some 30, 0) ≤ 1 :=
  ⟨(claim_C5_materialization_idempotent emptyDb 1 jsonEvent (some 30) 0 ("voice")
      [] [] ("voice") ⟨0, 0⟩ 0).1 1,
   (claim_C5_materialization_idempotent dbWithNotif 1 jsonEvent (some 30) 0 ("voice")
      [] [] ("voice") ⟨0, 0⟩ 0).2.1 (by decide),
   (claim_C5_materialization_idempotent emptyDb 1 jsonEvent (some 30) 0 ("voice")
      [] [] ("voice") ⟨0, 0⟩ 0).2.2.1 (by decide)⟩

/-! ## Lemmas for claim C4 (`ensure_notifications` semantics) -/

/-- One `ensure_notifications` step only appends notification rows. -/
lemma ensureStep_appendOnly (default_channel : String) (currentTs : Int) (st : DbState)
    (p : Nat × Event) :
    ∃ suffix, (ensureStep default_channel currentTs st p).notifs = st.notifs ++ suffix := by
  unfold ensureStep
  cases p.2.start_time with
  | none => exact ⟨[], (List.append_nil _).symm⟩
  | some stt =>
    dsimp only
    by_cases hl : currentTs - 30 * 60 ≥ stt.utc
    · rw [if_pos hl]
      exact ⟨[], (List.append_nil _).symm⟩
    · rw [if_neg hl]
      unfold create_notification_task
      by_cases hc : containsKey st.notifs (p.1, some 30, stt.wall - 30 * 60) = true
      · rw [if_pos hc]
        exact ⟨[], (List.append_nil _).symm⟩
      · rw [if_neg hc]
        exact ⟨[notifRowFor st.nextNotifId p.1 p.2 (some 30) (stt.wall - 30 * 60) default_channel], rfl⟩

/-- The `ensure_notifications` fold only appends notification rows. -/
lemma ensureFold_appendOnly (default_channel : String) (currentTs : Int) :
    ∀ (pairs : List (Nat × Event)) (st : DbState),
      ∃ suffix, (pairs.foldl (ensureStep default_channel currentTs) st).notifs
        = st.notifs ++ suffix := by
  intro pairs
  induction pairs with
  | nil =>
    intro st
    exact ⟨[], (List.append_nil _).symm⟩
  | cons p rest ih =>
    intro st
    rw [List.foldl_cons]
    obtain ⟨s1, hs1⟩ := ensureStep_appendOnly default_channel currentTs st p
    obtain ⟨s2, hs2⟩ := ih (ensureStep default_channel currentTs st p)
    exact ⟨s1 ++ s2, by rw [hs2, hs1, List.append_assoc]⟩

/-- Any row present after one step is an old row or the freshly
materialized reminder of an eligible pair. -/
lemma ensureStep_new_mem (default_channel : String) (currentTs : Int) (st : DbState)
    (p : Nat × Event) (r : NotifRow)
    (hr : r ∈ (ensureStep default_channel currentTs st p).notifs) :
    r ∈ st.notifs ∨ ∃ stt nid, p.2.start_time = some stt ∧
      ¬ (currentTs - 30 * 60 ≥ stt.utc) ∧
      r = notifRowFor nid p.1 p.2 (some 30) (stt.wall - 30 * 60) default_channel := by
  unfold ensureStep at hr
  cases h : p.2.start_time with
  | none =>
    rw [h] at hr
    exact Or.inl hr
  | some stt =>
    rw [h] at hr
    dsimp only at hr
    by_cases hl : currentTs - 30 * 60 ≥ stt.utc
    · rw [if_pos hl] at hr
      exact Or.inl hr
    · rw [if_neg hl] at hr
      unfold create_notification_task at hr
      by_cases hc : containsKey st.notifs (p.1, some 30, stt.wall - 30 * 60) = true
      · rw [if_pos hc] at hr
        exact Or.inl hr
      · rw [if_neg hc] at hr
        rcases List.mem_append.mp hr with hold | hnew
        · exact Or.inl hold
        · simp only [List.mem_singleton] at hnew
          exact Or.inr ⟨stt, st.nextNotifId, rfl, hl, hnew⟩

/-- Any row present after the fold is an old row or the freshly
materialized reminder of some eligible pair in the list. -/
lemma ensureFold_new_mem (default_channel : String) (currentTs : Int) :
    ∀ (pairs : List (Nat × Event)) (st : DbState) (r : NotifRow),
      r ∈ (pairs.foldl (ensureStep default_channel currentTs) st).notifs →
      r ∈ st.notifs ∨ ∃ p ∈ pairs, ∃ stt nid, p.2.start_time = some stt ∧
        ¬ (currentTs - 30 * 60 ≥ stt.utc) ∧
        r = notifRowFor nid p.1 p.2 (some 30) (stt.wall - 30 * 60) default_channel := by
  intro pairs
  induction pairs with
  | nil =>
    intro st r hr
    exact Or.inl hr
  | cons p rest ih =>
    intro st r hr
    rw [List.foldl_cons] at hr
    rcases ih _ r hr with h1 | ⟨q, hq, stt, nid, hstt, hel, hrow⟩
    · rcases ensureStep_new_mem default_channel currentTs st p r h1 with h2 | ⟨stt, nid, hstt, hel, hrow⟩
      · exact Or.inl h2
      · exact Or.inr ⟨p, List.mem_cons_self p rest, stt, nid, hstt, hel, hrow⟩
    · exact Or.inr ⟨q, List.mem_cons_of_mem p hq, stt, nid, hstt, hel, hrow⟩

/-- Inserting preserves key uniqueness. -/
lemma keyUnique_create (st : DbState) (event_id : Nat) (e : Event) (offset : Option Int)
    (remind_at : Int) (channel : String) (h : KeyUnique st.notifs) :
    KeyUnique (create_notification_task st event_id e offset remind_at channel).notifs := by
  unfold create_notification_task
  by_cases hc : containsKey st.notifs (event_id, offset, remind_at) = true
  · rw [if_pos hc]
    exact h
  · rw [if_neg hc]
    unfold KeyUnique at h ⊢
    rw [List.pairwise_append]
    refine ⟨h, List.pairwise_singleton _ _, ?_⟩
    intro a ha b hb
    simp only [List.mem_singleton] at hb
    subst hb
    intro heq
    apply hc
    unfold containsKey
    rw [List.any_eq_true]
    refine ⟨a, ha, ?_⟩
    rw [beq_iff_eq, heq]
    rfl

/-- One step preserves key uniqueness. -/
lemma keyUnique_ensureStep (default_channel : String) (currentTs : Int) (st : DbState)
    (p : Nat × Event) (h : KeyUnique st.notifs) :
    KeyUnique (ensureStep default_channel currentTs st p).notifs := by
  unfold ensureStep
  cases p.2.start_time with
  | none => exact h
  | some stt =>
    dsimp only
    by_cases hl : currentTs - 30 * 60 ≥ stt.utc
    · rw [if_pos hl]
      exact h
    · rw [if_neg hl]
      exact keyUnique_create _ _ _ _ _ _ h

/-- The fold preserves key uniqueness. -/
lemma keyUnique_ensureFold (default_channel : String) (currentTs : Int) :
    ∀ (pairs : List (Nat × Event)) (st : DbState), KeyUnique st.notifs →
      KeyUnique (pairs.foldl (ensureStep default_channel currentTs) st).notifs := by
  intro pairs
  induction pairs with
  | nil =>
    intro st h
    exact h
  | cons p rest ih =>
    intro st h
    rw [List.foldl_cons]
    exact ih _ (keyUnique_ensureStep default_channel currentTs st p h)

/-- With unique keys, a contained key occurs exactly once. -/
lemma countKey_eq_one (k : Nat × Option Int × Int) :
    ∀ (l : List NotifRow), KeyUnique l → containsKey l k = true → countKey l k = 1 := by
  intro l
  induction l with
  | nil =>
    intro _ hc
    simp [containsKey] at hc
  | cons r t ih =>
    intro hu hc
    by_cases hr : (notifKey r == k) = true
    · unfold countKey
      rw [List.countP_cons, if_pos hr]
      have ht : List.countP (fun x => notifKey x == k) t = 0 := by
        rw [List.countP_eq_zero]
        intro b hb
        have hne := (List.pairwise_cons.mp hu).1 b hb
        intro hbk
        apply hne
        rw [beq_iff_eq] at hr hbk
        rw [hr, hbk]
      rw [ht]
    · have hrf : (notifKey r == k) = false := by
        cases hbk : (notifKey r == k)
        · rfl
        · exact absurd hbk hr
      unfold containsKey at hc
      rw [List.any_cons, hrf, Bool.false_or] at hc
      unfold countKey
      rw [List.countP_cons, if_neg hr]
      have := ih (List.pairwise_cons.mp hu).2 hc
      unfold countKey at this
      rw [this]

/-- Claim C4: `ensure_notifications` semantics: existing rows are only
ever appended to; every new row stems from a paired `(event_id, event)`
with a resolved `start_time` not 30 or more minutes in the past, and
carries `offset_minutes = 30`, `remind_at = start_time − 30min`, the
given channel and the `{token, display_name, section}` metadata (so
events without a start time, and late events, produce no row); and every
such eligible pair ends with exactly one row under its reminder key. -/
theorem claim_C4_ensure_notifications (st : DbState) (event_ids : List Nat)
    (events : List Event) (default_channel : String) (now : PyDateTime) (currentTs : Int)
    (hU : KeyUnique st.notifs) :
    (∃ suffix, (ensure_notifications st event_ids events default_channel now currentTs).notifs
        = st.notifs ++ suffix) ∧
    (∀ r ∈ (ensure_notifications st event_ids events default_channel now currentTs).notifs,
      r ∉ st.notifs →
      ∃ p ∈ event_ids.zip events, ∃ stt nid, p.2.start_time = some stt ∧
        currentTs - 30 * 60 < stt.utc ∧
        r = notifRowFor nid p.1 p.2 (some 30) (stt.wall - 30 * 60) default_channel) ∧
    (∀ p ∈ event_ids.zip events, ∀ stt, p.2.start_time = some stt →
      currentTs - 30 * 60 < stt.utc →
      countKey (ensure_notifications st event_ids events default_channel now currentTs).notifs
        (p.1, some 30, stt.wall - 30 * 60) = 1) := by
  unfold ensure_notifications
  refine ⟨ensureFold_appendOnly default_channel currentTs (event_ids.zip events) st, ?_, ?_⟩
  · intro r hr hnot
    rcases ensureFold_new_mem default_channel currentTs (event_ids.zip events) st r hr with
      h1 | ⟨p, hp, stt, nid, hstt, hel, hrow⟩
    · exact absurd h1 hnot
    · exact ⟨p, hp, stt, nid, hstt, not_le.mp hel, hrow⟩
  · intro p hp stt hstt hlt
    exact countKey_eq_one (p.1, some 30, stt.wall - 30 * 60) _
      (keyUnique_ensureFold default_channel currentTs (event_ids.zip events) st hU)
      (containsKey_ensureFold_key default_channel currentTs p stt hstt (not_le.mpr hlt)
        (event_ids.zip events) st hp)

/-- Witness for C4: one eligible event materializes exactly one
notification row with key `(7, 30, start − 30min)`. -/
theorem claim_C4_ensure_notifications_witness :
    countKey (ensure_notifications emptyDb [7] [omegaEvent] ("voice") ⟨0, 0⟩ 0).notifs
      (7, some 30, 35400) = 1 := by
  have h := claim_C4_ensure_notifications emptyDb [7] [omegaEvent] ("voice") ⟨0, 0⟩ 0
    List.Pairwise.nil
  exact h.2.2 (7, omegaEvent) (by simp) ⟨37200, 28800⟩ rfl (by decide)

/-! ## Lemmas and theorem for claim C7 (status monotonicity) -/

/-- Method `upsert_events` touches only the events table: the notification
rows and their id counter are untouched on every path. -/
lemma upsert_preserves_notifs : ∀ (events : List Event) (st : DbState) (now : PyDateTime),
    (upsert_events st events now).1.notifs = st.notifs ∧
    (upsert_events st events now).1.nextNotifId = st.nextNotifId := by
  intro evs
  induction evs with
  | nil =>
    intro st now
    exact ⟨rfl, rfl⟩
  | cons e rest ih =>
    intro st now
    have hexec : ∀ (s : DbState) (eff : DbState → DbState),
        execSql s updateEventsSql eff = .error .syntaxError := fun s eff => rfl
    unfold upsert_events
    dsimp only
    split
    · exact ih st now
    · split
      · exact ih st now
      · split
        · rw [hexec]
          exact ⟨rfl, rfl⟩
        · split
          · refine ⟨?_, ?_⟩
            · rw [(ih _ now).1]
            · rw [(ih _ now).2]
          · exact ⟨rfl, rfl⟩

/-- The notification id counter only grows and stays fresh across an
insert. -/
lemma idsFresh_pred_create (st : DbState) (event_id : Nat) (e : Event) (offset : Option Int)
    (remind_at : Int) (channel : String)
    (h : ∀ r ∈ st.notifs, r.id < st.nextNotifId) :
    ∀ r ∈ (create_notification_task st event_id e offset remind_at channel).notifs,
      r.id < (create_notification_task st event_id e offset remind_at channel).nextNotifId := by
  unfold create_notification_task
  by_cases hc : containsKey st.notifs (event_id, offset, remind_at) = true
  · rw [if_pos hc]
    exact h
  · rw [if_neg hc]
    intro r hr
    rcases List.mem_append.mp hr with h1 | h2
    · exact Nat.lt_succ_of_lt (h r h1)
    · simp only [List.mem_singleton] at h2
      subst h2
      exact Nat.lt_succ_self _

/-- One `ensure_notifications` step keeps ids fresh. -/
lemma idsFresh_pred_ensureStep (default_channel : String) (currentTs : Int) (st : DbState)
    (p : Nat × Event) (h : ∀ r ∈ st.notifs, r.id < st.nextNotifId) :
    ∀ r ∈ (ensureStep default_channel currentTs st p).notifs,
      r.id < (ensureStep default_channel currentTs st p).nextNotifId := by
  unfold ensureStep
  cases p.2.start_time with
  | none => exact h
  | some stt =>
    dsimp only
    by_cases hl : currentTs - 30 * 60 ≥ stt.utc
    · rw [if_pos hl]
      exact h
    · rw [if_neg hl]
      exact idsFresh_pred_create _ _ _ _ _ _ h

/-- The whole `ensure_notifications` fold keeps ids fresh. -/
lemma idsFresh_pred_ensureFold (default_channel : String) (currentTs : Int) :
    ∀ (pairs : List (Nat × Event)) (st : DbState),
      (∀ r ∈ st.notifs, r.id < st.nextNotifId) →
      ∀ r ∈ (pairs.foldl (ensureStep default_channel currentTs) st).notifs,
        r.id < (pairs.foldl (ensureStep default_channel currentTs) st).nextNotifId := by
  intro pairs
  induction pairs with
  | nil =>
    intro st h
    exact h
  | cons p rest ih =>
    intro st h
    rw [List.foldl_cons]
    exact ih _ (idsFresh_pred_ensureStep default_channel currentTs st p h)

/-- A find that succeeds on a prefix succeeds unchanged on the
extension. -/
lemma find?_append_of_some (p : NotifRow → Bool) :
    ∀ (l₁ l₂ : List NotifRow) (r : NotifRow), l₁.find? p = some r →
      (l₁ ++ l₂).find? p = some r := by
  intro l₁
  induction l₁ with
  | nil =>
    intro l₂ r h
    exact absurd h (by simp)
  | cons a t ih =>
    intro l₂ r h
    rw [List.cons_append]
    by_cases hpa : p a = true
    · rw [List.find?_cons_of_pos _ hpa] at h ⊢
      exact h
    · rw [List.find?_cons_of_neg _ hpa] at h ⊢
      exact ih l₂ r h

/-- Mapping an id-preserving function commutes with finding by id. -/
lemma find?_map_id (g : NotifRow → NotifRow) (hg : ∀ r, (g r).id = r.id) (nid : Nat) :
    ∀ (l : List NotifRow),
      (l.map g).find? (fun r => r.id == nid) = (l.find? (fun r => r.id == nid)).map g := by
  intro l
  induction l with
  | nil => rfl
  | cons a t ih =>
    rw [List.map_cons]
    by_cases hpa : (a.id == nid) = true
    · have hga : ((g a).id == nid) = true := by rw [hg a]; exact hpa
      rw [@List.find?_cons_of_pos _ (fun r => r.id == nid) (g a) (t.map g) hga,
        @List.find?_cons_of_pos _ (fun r => r.id == nid) a t hpa]
      rfl
    · have hga : ¬ ((g a).id == nid) = true := by rw [hg a]; exact hpa
      rw [@List.find?_cons_of_neg _ (fun r => r.id == nid) (g a) (t.map g) hga,
        @List.find?_cons_of_neg _ (fun r => r.id == nid) a t hpa]
      exact ih

/-- Update `markRow` never changes a row's id. -/
lemma markRow_id (notification_id : Nat) (status : NStatus) (reason : Option String)
    (success : Bool) (nowTs : Int) (r : NotifRow) :
    (markRow notification_id status reason success nowTs r).id = r.id := by
  unfold markRow
  split <;> rfl

/-- The operations of the persistence core (C4 of the spec): upsert,
materialize, fetch due (a pure read), transition delivery status, append
an attempt log. -/
inductive CoreOp
  | upsert (events : List Event) (now : PyDateTime)
  | ensure (event_ids : List Nat) (events : List Event) (channel : String)
      (now : PyDateTime) (currentTs : Int)
  | fetchDue (now : PyDateTime)
  | mark (notification_id : Nat) (success : Bool) (fail_reason : Option String) (nowTs : Int)
  | logAttempt (notification_id attempt_no : Nat) (endpoint : String)
      (payload : List (String × String)) (response_code : Option Int)
      (response_body : Option (List (String × String)))

/-- State transition of one core operation (`fetch_due_notifications`
reads but does not write). -/
def applyOp (st : DbState) : CoreOp → DbState
  | .upsert events now => (upsert_events st events now).1
  | .ensure event_ids events channel now currentTs =>
    ensure_notifications st event_ids events channel now currentTs
  | .fetchDue _ => st
  | .mark notification_id success fail_reason nowTs =>
    mark_notification_sent st notification_id success fail_reason nowTs
  | .logAttempt notification_id attempt_no endpoint payload response_code response_body =>
    log_notification_attempt st notification_id attempt_no endpoint payload
      response_code response_body

/-- A sequence of core operations. -/
def applyOps (st : DbState) (ops : List CoreOp) : DbState := ops.foldl applyOp st

/-- The status of the notification row with a given id. -/
def rowStatus (st : DbState) (nid : Nat) : Option NStatus :=
  (st.notifs.find? (fun r => r.id == nid)).map (fun r => r.status)

/-- Auto-increment invariant: every stored notification id is below the
counter. -/
def idsFresh (st : DbState) : Prop := ∀ r ∈ st.notifs, r.id < st.nextNotifId

/-- One core operation keeps ids fresh and never moves a terminal
status back to `pending`. -/
lemma applyOp_status (st : DbState) (op : CoreOp) (nid : Nat) (s : NStatus)
    (hfresh : idsFresh st) (hs : rowStatus st nid = some s) (hterm : s ≠ .pending) :
    idsFresh (applyOp st op) ∧
    ∃ s', rowStatus (applyOp st op) nid = some s' ∧ s' ≠ .pending := by
  cases op with
  | upsert evs now =>
    have h1 := (upsert_preserves_notifs evs st now).1
    have h2 := (upsert_preserves_notifs evs st now).2
    dsimp only [applyOp]
    constructor
    · unfold idsFresh
      rw [h1, h2]
      exact hfresh
    · unfold rowStatus at hs ⊢
      rw [h1]
      exact ⟨s, hs, hterm⟩
  | ensure ids evs ch now ts =>
    dsimp only [applyOp]
    unfold ensure_notifications
    obtain ⟨suffix, hsfx⟩ := ensureFold_appendOnly ch ts (ids.zip evs) st
    constructor
    · exact idsFresh_pred_ensureFold ch ts (ids.zip evs) st hfresh
    · unfold rowStatus at hs ⊢
      rw [hsfx]
      cases hfind : st.notifs.find? (fun r => r.id == nid) with
      | none =>
        rw [hfind] at hs
        exact absurd hs (by simp)
      | some row =>
        rw [find?_append_of_some _ _ suffix row hfind]
        rw [hfind] at hs
        exact ⟨s, hs, hterm⟩
  | fetchDue now => exact ⟨hfresh, s, hs, hterm⟩
  | mark nid' succ reason ts =>
    dsimp only [applyOp]
    unfold mark_notification_sent
    dsimp only
    constructor
    · intro r hr
      rcases List.mem_map.mp hr with ⟨r₀, hr₀, hrr⟩
      subst hrr
      rw [markRow_id]
      exact hfresh r₀ hr₀
    · unfold rowStatus at hs ⊢
      rw [find?_map_id _ (markRow_id nid' _ _ succ ts) nid]
      cases hfind : st.notifs.find? (fun r => r.id == nid) with
      | none =>
        rw [hfind] at hs
        exact absurd hs (by simp)
      | some row =>
        rw [hfind] at hs
        refine ⟨(markRow nid' (if succ then NStatus.sent else NStatus.failed)
          (match reason with
           | some s => if s == ("") then none else some (s.take 255)
           | none => none) succ ts row).status, rfl, ?_⟩
        unfold markRow
        split
        · dsimp only
          cases succ <;> decide
        · have hrow : row.status = s := by
            injection hs
          rw [hrow]
          exact hterm
  | logAttempt nid' a ep pl rc rb =>
    exact ⟨hfresh, s, hs, hterm⟩

/-- Claim C7: Status is monotonic: in every state reachable by core
operations from a state with fresh ids, once a notification row's
status is terminal (`sent` or `failed`, i.e. not `pending`), no core
operation sequence brings it back to `pending`. -/
theorem claim_C7_status_monotonic (ops : List CoreOp) :
    ∀ (st : DbState) (nid : Nat) (s s' : NStatus), idsFresh st →
      rowStatus st nid = some s → s ≠ .pending →
      rowStatus (applyOps st ops) nid = some s' → s' ≠ .pending := by
  induction ops with
  | nil =>
    intro st nid s s' _ hs hterm hs'
    have := hs.symm.trans hs'
    simp only [Option.some.injEq] at this
    rwa [← this]
  | cons op rest ih =>
    intro st nid s s' hf hs hterm hs'
    obtain ⟨hf', s₁, hs₁, hterm₁⟩ := applyOp_status st op nid s hf hs hterm
    exact ih (applyOp st op) nid s₁ s' hf' hs₁ hterm₁ hs'

/-- A store with one already-sent notification row. -/
def dbSent : DbState :=
  ⟨[], [⟨1, 1, some 30, 0, ("voice"), .sent, none, none, 1,
    ⟨("ALPHA"), ("ALPHA"), ("today")⟩⟩], [], 1, 2, 1⟩

/-- Witness for C7: marking an already-sent row failed leaves it
terminal, never `pending`. -/
theorem claim_C7_status_monotonic_witness :
    rowStatus (applyOps dbSent [CoreOp.mark 1 false (some ("late")) 0]) 1
      = some NStatus.failed ∧
    NStatus.failed ≠ NStatus.pending :=
  ⟨rfl,
   claim_C7_status_monotonic [CoreOp.mark 1 false (some ("late")) 0] dbSent 1
     .sent .failed (by unfold idsFresh; decide) rfl (by decide) rfl⟩

/-! ## Lemmas and theorem for claim C6 (`fetch_due_notifications`) -/

/-- The claim's result order on rows: ascending `remind_at`, ties broken
by ascending id. -/
def rowLex (a b : NotifRow) : Prop :=
  a.remind_at < b.remind_at ∨ (a.remind_at = b.remind_at ∧ a.id < b.id)

/-- Relation `rowLex` follows from the sort key plus an id tie-break. -/
lemma rowLex_of_le_id (a b : NotifRow) (h1 : a.remind_at ≤ b.remind_at)
    (h2 : a.id < b.id) : rowLex a b := by
  rcases lt_or_eq_of_le h1 with h | h
  · exact Or.inl h
  · exact Or.inr ⟨h, h2⟩

/-- Relation `rowLex` implies the sort key order. -/
lemma le_of_rowLex (a b : NotifRow) (h : rowLex a b) : a.remind_at ≤ b.remind_at := by
  rcases h with h | ⟨h, -⟩
  · exact le_of_lt h
  · exact le_of_eq h

/-- Inserting an element with the smallest id into a `rowLex`-sorted
list keeps it `rowLex`-sorted (the insertion point is after all equal
keys: stability). -/
lemma orderedInsert_rowLex (a : NotifRow) :
    ∀ (l : List NotifRow), l.Pairwise rowLex → (∀ b ∈ l, a.id < b.id) →
      (l.orderedInsert (fun x y => x.remind_at ≤ y.remind_at) a).Pairwise rowLex := by
  intro l
  induction l with
  | nil =>
    intro _ _
    exact List.pairwise_singleton _ _
  | cons b t ih =>
    intro hl hid
    rw [List.orderedInsert]
    by_cases hab : a.remind_at ≤ b.remind_at
    · rw [if_pos hab]
      refine List.pairwise_cons.mpr ⟨?_, hl⟩
      intro c hc
      rcases List.mem_cons.mp hc with hcb | hct
      · subst hcb
        exact rowLex_of_le_id a c hab (hid c (List.mem_cons_self _ _))
      · have hbc := (List.pairwise_cons.mp hl).1 c hct
        exact rowLex_of_le_id a c (le_trans hab (le_of_rowLex b c hbc))
          (hid c (List.mem_cons_of_mem _ hct))
    · rw [if_neg hab]
      refine List.pairwise_cons.mpr ⟨?_, ?_⟩
      · intro c hc
        rcases (List.mem_orderedInsert _).mp hc with hca | hct
        · subst hca
          exact Or.inl (not_le.mp hab)
        · exact (List.pairwise_cons.mp hl).1 c hct
      · exact ih (List.pairwise_cons.mp hl).2
          (fun c hc => hid c (List.mem_cons_of_mem _ hc))

/-- Stable insertion sort of an id-increasing list is `rowLex`-sorted. -/
lemma insertionSort_rowLex :
    ∀ (l : List NotifRow), l.Pairwise (fun a b => a.id < b.id) →
      (l.insertionSort (fun x y => x.remind_at ≤ y.remind_at)).Pairwise rowLex := by
  intro l
  induction l with
  | nil =>
    intro _
    constructor
  | cons a t ih =>
    intro h
    rw [List.insertionSort]
    apply orderedInsert_rowLex
    · exact ih (List.pairwise_cons.mp h).2
    · intro b hb
      have hbt : b ∈ t :=
        (List.perm_insertionSort (fun x y => x.remind_at ≤ y.remind_at) t).mem_iff.mp hb
      exact (List.pairwise_cons.mp h).1 b hbt

/-- With the join always succeeding, the task list projects back to the
selected rows' ids in order. -/
lemma fetch_tasks_ids (st : DbState) :
    ∀ (l : List NotifRow),
      (∀ n ∈ l, (st.events.find? (fun e => e.id == n.event_id)).isSome = true) →
      (l.filterMap
          (fun n => (st.events.find? (fun e => e.id == n.event_id)).map (mkTask n))).map
          (fun t => t.id)
        = l.map (fun n => n.id) := by
  intro l
  induction l with
  | nil =>
    intro _
    rfl
  | cons n t ih =>
    intro h
    have hn := h n (List.mem_cons_self n t)
    rw [List.filterMap_cons]
    cases hfind : st.events.find? (fun e => e.id == n.event_id) with
    | none =>
      rw [hfind] at hn
      exact absurd hn (by simp)
    | some ev =>
      show ((mkTask n ev) :: t.filterMap
          (fun n => (st.events.find? (fun e => e.id == n.event_id)).map (mkTask n))).map
          (fun t => t.id)
        = (n :: t).map (fun x => x.id)
      rw [List.map_cons, List.map_cons,
        ih (fun m hm => h m (List.mem_cons_of_mem n hm))]
      rfl

/-- The `rowLex` order survives the join into tasks. -/
lemma fetch_tasks_pairwise (st : DbState) :
    ∀ (l : List NotifRow), l.Pairwise rowLex →
      (l.filterMap
          (fun n => (st.events.find? (fun e => e.id == n.event_id)).map (mkTask n))).Pairwise
        (fun a b => a.remind_at < b.remind_at ∨ (a.remind_at = b.remind_at ∧ a.id < b.id)) := by
  intro l
  induction l with
  | nil =>
    intro _
    constructor
  | cons n t ih =>
    intro h
    rw [List.filterMap_cons]
    cases hfind : st.events.find? (fun e => e.id == n.event_id) with
    | none =>
      exact ih (List.pairwise_cons.mp h).2
    | some ev =>
      show ((mkTask n ev) :: t.filterMap
          (fun n => (st.events.find? (fun e => e.id == n.event_id)).map (mkTask n))).Pairwise
        (fun a b => a.remind_at < b.remind_at ∨ (a.remind_at = b.remind_at ∧ a.id < b.id))
      refine List.pairwise_cons.mpr ⟨?_, ih (List.pairwise_cons.mp h).2⟩
      intro b hb
      rcases List.mem_filterMap.mp hb with ⟨m, hm, hmb⟩
      cases hfind2 : st.events.find? (fun e => e.id == m.event_id) with
      | none =>
        rw [hfind2] at hmb
        cases hmb
      | some ev2 =>
        rw [hfind2] at hmb
        have hb' : mkTask m ev2 = b := by injection hmb
        subst hb'
        have hlex := (List.pairwise_cons.mp h).1 m hm
        rcases hlex with h1 | ⟨h2, h3⟩
        · exact Or.inl h1
        · exact Or.inr ⟨h2, h3⟩

/-- Claim C6: `fetch_due_notifications(now)` returns exactly the pending
rows with `remind_at ≤ now` (as a permutation of that filter), as tasks
whose ids follow the selected rows, sorted ascending by `remind_at`
with ties broken by ascending insertion id.  The tie order and the
always-successful join are the spec-modelled parts: the engine is
modelled as a stable sort over the id-ordered table, and referential
integrity is the schema's foreign key. -/
theorem claim_C6_fetch_due (st : DbState) (now : PyDateTime)
    (hid : st.notifs.Pairwise (fun a b => a.id < b.id))
    (hFK : ∀ n ∈ st.notifs, (st.events.find? (fun e => e.id == n.event_id)).isSome = true) :
    (selectDue st now).Perm (st.notifs.filter (duePred now)) ∧
    ((fetch_due_notifications st now).map (fun t => t.id)
      = (selectDue st now).map (fun n => n.id)) ∧
    (fetch_due_notifications st now).Pairwise
      (fun a b => a.remind_at < b.remind_at ∨ (a.remind_at = b.remind_at ∧ a.id < b.id)) := by
  have hsub : ∀ n ∈ selectDue st now, n ∈ st.notifs := by
    intro n hn
    unfold selectDue at hn
    have h1 : n ∈ st.notifs.filter (duePred now) :=
      (List.perm_insertionSort (fun a b => a.remind_at ≤ b.remind_at)
        (st.notifs.filter (duePred now))).mem_iff.mp hn
    exact List.mem_of_mem_filter h1
  refine ⟨?_, ?_, ?_⟩
  · unfold selectDue
    exact List.perm_insertionSort _ _
  · unfold fetch_due_notifications
    exact fetch_tasks_ids st (selectDue st now) (fun n hn => hFK n (hsub n hn))
  · unfold fetch_due_notifications
    apply fetch_tasks_pairwise
    unfold selectDue
    exact insertionSort_rowLex _ (hid.filter _)

/-- A store with one event row and two due pending notifications
sharing `remind_at`. -/
def dbDue : DbState :=
  ⟨[⟨1, ("OMEGA"), some 37200, ("10:20"), none, none, []⟩],
   [⟨1, 1, some 30, 100, ("voice"), .pending, none, none, 0, ⟨("OMEGA"), ("OMEGA"), ("today")⟩⟩,
    ⟨2, 1, some 30, 100, ("voice"), .pending, none, none, 0, ⟨("OMEGA"), ("OMEGA"), ("today")⟩⟩],
   [], 2, 3, 1⟩

/-- Witness for C6: with a `remind_at` tie, the returned tasks follow
insertion-id order. -/
theorem claim_C6_fetch_due_witness :
    (fetch_due_notifications dbDue ⟨1000, 0⟩).map (fun t => t.id)
      = (selectDue dbDue ⟨1000, 0⟩).map (fun n => n.id) :=
  (claim_C6_fetch_due dbDue ⟨1000, 0⟩ (by decide) (by decide)).2.1
